import Mathlib

/-!
Shallow embedding of the rlox interpreter (a tree-walking Lox interpreter in
Rust) and proofs about the claims of its specification.

Embedded source files: src/environment.rs, src/expressions.rs,
src/statements.rs, src/token.rs, src/scanner.rs, src/parser.rs,
src/interpreter.rs.

Modelling conventions:
- Rust `f64` is modelled by `ℚ`.  Every claim under scrutiny evaluates the
  arithmetic at small integral values, where `f64` arithmetic is exact and
  agrees with `ℚ`; the division-by-zero guard (`right == &0.0`) becomes an
  exact comparison with `0`, which is what the source performs as well.
- Rust `HashMap<String, Value>` is modelled by an association list with
  insert-replaces semantics (`mapInsert`); the interpreter never iterates a
  map, so ordering is unobservable.
- `&mut self` methods are modelled by explicit state passing.  The Rust
  `Result<T, String>` of fallible methods becomes `Except String T`; since
  mutations on `self` persist when a Rust method returns `Err`, the
  evaluator returns its (possibly mutated) state alongside the
  `Except String` result rather than discarding it on the error path.
- recursion that the Rust code drives by loops or by mutually recursive
  calls is given an explicit fuel argument (first argument, always
  decreasing) so that every definition is structurally recursive and
  computable inside the kernel.  Fuel is an artifact: any value at least the
  source/token length reaches the same result as the Rust loops.
-/

namespace RLox

/-- Runtime values, from `enum Value` in src/environment.rs.
`Number(f64)` is modelled with `ℚ` (see the module conventions). -/
inductive Value where
  | number (n : ℚ)
  | string (s : String)
  | boolean (b : Bool)
  | nil
deriving DecidableEq, Repr

/-- Rendering of a number, modelling Rust `{}` on `f64` as used by
`impl Display for Value`.  On integral values (`den = 1`) Rust prints the
bare integer, which this reproduces exactly; the fallback branch for
non-integral rationals differs textually from Rust (which prints a decimal
expansion), but no claim below evaluates a display at a non-integral
number. -/
def numToString (q : ℚ) : String :=
  if q.den = 1 then toString q.num else toString q.num ++ "/" ++ toString q.den

/-- Display form of a value, from `impl fmt::Display for Value` in
src/interpreter.rs. -/
def Value.display : Value → String
  | .number n => numToString n
  | .string s => s
  | .boolean b => if b then "true" else "false"
  | .nil => "nil"

/-- Token kinds.  The enum lives in src/tokentype.rs, which is not among the
staged source files; its variants are reconstructed from every use in
src/scanner.rs, src/parser.rs and src/interpreter.rs (all of which are
staged).  Variants whose Rust name is a Lean keyword carry a trailing
underscore.  `Number(f64)` is modelled with `ℚ`. -/
inductive TokenType where
  | leftParen | rightParen | leftBrace | rightBrace
  | comma | dot | minus | plus | semicolon | slash | star
  | bang | bangEqual | equal | equalEqual
  | greater | greaterEqual | less | lessEqual
  | questionMark | colon
  | identifier (name : String)
  | string (value : String)
  | number (value : ℚ)
  | and_ | class_ | else_ | false_ | fun_ | for_ | if_ | nil | or_
  | print | return_ | super_ | this_ | true_ | var_ | while_
  | eof
deriving DecidableEq, Repr

/-- Modelled from the spec: the `Display` impl for `TokenType` lives in
src/tokentype.rs, which is missing from the staged sources, yet the
interpreter renders operators through it inside its error messages.  The
spec fixes the rendering to the operator symbol as written in source
(grammar of section 4.1), and the staged tests pin it down for `/`
(`"Division by zero: 1 / 0"` in src/interpreter.rs).  Each token kind is
rendered as its source spelling; payload-carrying kinds render their
payload. -/
def ttDisplay : TokenType → String
  | .leftParen => "("
  | .rightParen => ")"
  | .leftBrace => "\x7b"
  | .rightBrace => "\x7d"
  | .comma => ","
  | .dot => "."
  | .minus => "-"
  | .plus => "+"
  | .semicolon => ";"
  | .slash => "/"
  | .star => "*"
  | .bang => "!"
  | .bangEqual => "!="
  | .equal => "="
  | .equalEqual => "=="
  | .greater => ">"
  | .greaterEqual => ">="
  | .less => "<"
  | .lessEqual => "<="
  | .questionMark => "?"
  | .colon => ":"
  | .identifier name => name
  | .string value => value
  | .number value => numToString value
  | .and_ => "and"
  | .class_ => "class"
  | .else_ => "else"
  | .false_ => "false"
  | .fun_ => "fun"
  | .for_ => "for"
  | .if_ => "if"
  | .nil => "nil"
  | .or_ => "or"
  | .print => "print"
  | .return_ => "return"
  | .super_ => "super"
  | .this_ => "this"
  | .true_ => "true"
  | .var_ => "var"
  | .while_ => "while"
  | .eof => ""

/-- Tokens, from `struct Token` in src/token.rs. -/
structure Token where
  token_type : TokenType
  lexeme : String
  line : Nat
deriving DecidableEq, Repr

/-- Modelled from the spec: the `Display` impl for `Token` (used by
`impl Display for Expr` in src/expressions.rs) is not among the staged
sources.  The spec describes the printed AST as the `(op left right)`-style
rendering in which every token appears as its raw source text, so a token
displays as its lexeme. -/
def tokenDisplay (t : Token) : String :=
  t.lexeme

/-- Expressions, from `enum Expr` in src/expressions.rs.  The staged copy of
expressions.rs lists five variants, but the staged src/parser.rs constructs
`Expr::Variable` and `Expr::Assign` and src/interpreter.rs consumes them, so
the enum of the building repository necessarily carries both; they are
included with the fields those uses dictate.  `Variable` carries a trailing
underscore because `variable` is a Lean keyword. -/
inductive Expr where
  | binary (left : Expr) (operator : Token) (right : Expr)
  | ternary (left : Expr) (operator1 : Token) (middle : Expr) (operator2 : Token) (right : Expr)
  | grouping (expression : Expr)
  | literal (value : Token)
  | unary (operator : Token) (right : Expr)
  | variable_ (name : Token)
  | assign (name : Token) (value : Expr)
deriving DecidableEq, Repr

/-- Canonical printed form of an expression, from `impl Display for Expr` in
src/expressions.rs.  The staged impl covers the five staged variants; the
`variable_` and `assign` cases (absent from the staged file, see `Expr`) are
modelled conservatively and no theorem below depends on them. -/
def Expr.display : Expr → String
  | .binary left operator right =>
      "(" ++ tokenDisplay operator ++ " " ++ left.display ++ " " ++ right.display ++ ")"
  | .ternary left operator1 middle operator2 right =>
      "(" ++ tokenDisplay operator1 ++ " " ++ left.display ++ " " ++ middle.display
        ++ " " ++ tokenDisplay operator2 ++ " " ++ right.display ++ ")"
  | .grouping expression => "(group " ++ expression.display ++ ")"
  | .literal value => tokenDisplay value
  | .unary operator right => "(" ++ tokenDisplay operator ++ " " ++ right.display ++ ")"
  | .variable_ name => tokenDisplay name
  | .assign name value => "(= " ++ tokenDisplay name ++ " " ++ value.display ++ ")"

/-- Statements, from `enum Stmt` in src/statements.rs. -/
inductive Stmt where
  | expression (e : Expr)
  | print (e : Expr)
  | var (name : Token) (initializer : Expr)
  | block (statements : List Stmt)
deriving Repr

/-- Insertion into the association-list model of `HashMap<String, Value>`:
`HashMap::insert` replaces the value of an existing key and otherwise adds
the binding. -/
def mapInsert : List (String × Value) → String → Value → List (String × Value)
  | [], k, v => [(k, v)]
  | (k', v') :: rest, k, v =>
      if k' = k then (k, v) :: rest else (k', v') :: mapInsert rest k v

/-- Lookup in the association-list model of `HashMap<String, Value>`
(`HashMap::get`). -/
def mapGet : List (String × Value) → String → Option Value
  | [], _ => none
  | (k', v') :: rest, k => if k' = k then some v' else mapGet rest k

/-- Environments, from `struct Environment` in src/environment.rs: a map of
own bindings plus an optional enclosing environment. -/
inductive Environment where
  | mk (values : List (String × Value)) (enclosing : Option Environment)
deriving Repr

/-- Own bindings of an environment (`values` field). -/
def Environment.values : Environment → List (String × Value)
  | .mk values _ => values

/-- Enclosing environment (`enclosing` field). -/
def Environment.enclosing : Environment → Option Environment
  | .mk _ enclosing => enclosing

/-- Decidable equality of environments (Rust derives nothing here, but the
theorems compare environments; equality is plain structural equality). -/
def Environment.beq : Environment → Environment → Bool
  | .mk v1 none, .mk v2 none => v1 == v2
  | .mk v1 (some e1), .mk v2 (some e2) => v1 == v2 && Environment.beq e1 e2
  | _, _ => false

/-- Variable lookup, from `Environment::get` in src/environment.rs: search
the own map first, then the enclosing chain; error when exhausted. -/
def Environment.get : Environment → String → Except String Value
  | .mk values enclosing, name =>
      match mapGet values name, enclosing with
      | some value, _ => .ok value
      | none, some e => Environment.get e name
      | none, none => .error ( "Undefined variable \x27" ++ name ++ "\x27.")

/-- From `Environment::insert` in src/environment.rs. -/
def Environment.insert (env : Environment) (name : String) (value : Value) : Environment :=
  .mk (mapInsert env.values name value) env.enclosing

/-- From `Environment::define` in src/environment.rs: defining simply
inserts into the innermost map, whether or not the name was bound. -/
def Environment.define (env : Environment) (name : String) (value : Value) : Environment :=
  env.insert name value

/-- From `Environment::assign` in src/environment.rs: check that the name
resolves somewhere on the chain (`self.get(&name)?`), then insert into the
innermost map (`self.values.insert(name, value)`). -/
def Environment.assign (env : Environment) (name : String) (value : Value) :
    Except String Environment :=
  match env.get name with
  | .error e => .error e
  | .ok _ => .ok (env.insert name value)

/-- Interpreter state, from `struct Interpreter` in src/interpreter.rs,
together with the text printed so far (`println!` of the `Print`
statement).  The Rust struct also carries `had_error`, which no method of
the interpreter ever writes; it is omitted. -/
structure InterpState where
  environment : Environment
  output : List String
deriving Repr

/-- From `Interpreter::is_truthy` in src/interpreter.rs. -/
def is_truthy : Value → Bool
  | .nil => false
  | .boolean b => b
  | _ => true

/-- The body of the `Expr::Binary` arm of `Interpreter::evaluate_expression`
(src/interpreter.rs) after both operands have been evaluated: one value from
the operator's token type and the two operand values.  The match arms appear
in source order; `==` on values is `PartialEq` for `Value`, i.e. structural
equality (on `ℚ` in place of `f64`; no claim evaluates `==` at `NaN`, the
one value where the two differ). -/
def binaryOp (operator : Token) (left right : Value) : Except String Value :=
  match operator.token_type with
  | .comma => .ok right
  | .equalEqual => .ok (.boolean (decide (left = right)))
  | .bangEqual => .ok (.boolean (!decide (left = right)))
  | .greater | .less | .greaterEqual | .lessEqual =>
      match left, right with
      | .number l, .number r =>
          match operator.token_type with
          | .greater => .ok (.boolean (decide (l > r)))
          | .less => .ok (.boolean (decide (l < r)))
          | .greaterEqual => .ok (.boolean (decide (l ≥ r)))
          | .lessEqual => .ok (.boolean (decide (l ≤ r)))
          | _ => .error ( "Unexpected token type: \x27" ++ ttDisplay operator.token_type
              ++ "\x27 for Binary Expression")
      | _, _ => .error ( "Unexpected values: \x27" ++ left.display ++ "\x27 and \x27"
          ++ right.display ++ "\x27 for Binary Expression: " ++ left.display ++ " "
          ++ ttDisplay operator.token_type ++ " " ++ right.display)
  | .plus | .minus | .star | .slash =>
      match left, right with
      | .number l, .number r =>
          match operator.token_type with
          | .plus => .ok (.number (l + r))
          | .minus => .ok (.number (l - r))
          | .star => .ok (.number (l * r))
          | .slash =>
              if r = 0 then
                .error ( "Division by zero: " ++ numToString l ++ " "
                    ++ ttDisplay operator.token_type ++ " " ++ numToString r)
              else
                .ok (.number (l / r))
          | _ => .error ( "Unexpected token type: \x27" ++ ttDisplay operator.token_type
              ++ "\x27 for Binary Expression")
      | .string l, .string r =>
          match operator.token_type with
          | .plus => .ok (.string (l ++ r))
          | _ => .error ( "Unexpected token type: \x27" ++ ttDisplay operator.token_type
              ++ "\x27 for Binary Expression")
      | l, .string r =>
          match operator.token_type with
          | .plus => .ok (.string (l.display ++ r))
          | _ => .error ( "Unexpected token type: \x27" ++ ttDisplay operator.token_type
              ++ "\x27 for Binary Expression")
      | .string l, r =>
          match operator.token_type with
          | .plus => .ok (.string (l ++ r.display))
          | _ => .error ( "Unexpected token type: \x27" ++ ttDisplay operator.token_type
              ++ "\x27 for Binary Expression")
      | _, _ => .error ( "Unexpected values: \x27" ++ left.display ++ "\x27 and \x27"
          ++ right.display ++ "\x27 for Binary Expression: " ++ left.display ++ " "
          ++ ttDisplay operator.token_type ++ " " ++ right.display)
  | _ => .error ( "Unexpected token type: \x27" ++ ttDisplay operator.token_type
      ++ "\x27 for Binary Expression")

/-- From `Interpreter::evaluate_expression` in src/interpreter.rs.  The pair
carries the state alongside the result because mutations performed before a
Rust `?`-propagated error persist in `self`. -/
def evalExpr : Expr → InterpState → Except String Value × InterpState
  | .literal token, st =>
      match token.token_type with
      | .number n => (.ok (.number n), st)
      | .string s => (.ok (.string s), st)
      | .true_ => (.ok (.boolean true), st)
      | .false_ => (.ok (.boolean false), st)
      | .nil => (.ok .nil, st)
      | .identifier name => (st.environment.get name, st)
      | _ => (.error ( "Unexpected token type: \x27" ++ ttDisplay token.token_type
          ++ "\x27 for Literal Expresion"), st)
  | .variable_ name, st => (st.environment.get name.lexeme, st)
  | .grouping e, st => evalExpr e st
  | .unary operator right, st =>
      match evalExpr right st with
      | (.error e, st1) => (.error e, st1)
      | (.ok v, st1) =>
          match operator.token_type with
          | .minus =>
              match v with
              | .number n => (.ok (.number (-n)), st1)
              | _ => (.error ( "Unexpected value: \x27" ++ v.display
                  ++ "\x27 for Unary Expression: -" ++ v.display), st1)
          | .bang => (.ok (.boolean (!is_truthy v)), st1)
          | _ => (.error ( "Unexpected token type: \x27" ++ ttDisplay operator.token_type
              ++ "\x27 for Unary Expression"), st1)
  | .binary left operator right, st =>
      match evalExpr left st with
      | (.error e, st1) => (.error e, st1)
      | (.ok l, st1) =>
          match evalExpr right st1 with
          | (.error e, st2) => (.error e, st2)
          | (.ok r, st2) => (binaryOp operator l r, st2)
  | .ternary left operator1 middle operator2 right, st =>
      match evalExpr left st with
      | (.error e, st1) => (.error e, st1)
      | (.ok l, st1) =>
          match evalExpr middle st1 with
          | (.error e, st2) => (.error e, st2)
          | (.ok m, st2) =>
              match evalExpr right st2 with
              | (.error e, st3) => (.error e, st3)
              | (.ok r, st3) =>
                  match operator1.token_type with
                  | .questionMark =>
                      match operator2.token_type with
                      | .colon => (.ok (if is_truthy l then m else r), st3)
                      | _ => (.error ( "Unexpected token type: \x27"
                          ++ ttDisplay operator2.token_type
                          ++ "\x27 for Ternary Expression: " ++ l.display ++ " "
                          ++ ttDisplay operator1.token_type ++ " " ++ m.display ++ " "
                          ++ ttDisplay operator2.token_type ++ " " ++ r.display), st3)
                  | _ => (.error ( "Unexpected token type: \x27"
                      ++ ttDisplay operator1.token_type
                      ++ "\x27 for Ternary Expression: " ++ l.display ++ " "
                      ++ ttDisplay operator1.token_type ++ " " ++ m.display ++ " "
                      ++ ttDisplay operator2.token_type ++ " " ++ r.display), st3)
  | .assign name value, st =>
      match evalExpr value st with
      | (.error e, st1) => (.error e, st1)
      | (.ok v, st1) =>
          match st1.environment.assign name.lexeme v with
          | .error e => (.error e, st1)
          | .ok env' => (.ok v, { st1 with environment := env' })

/-- From `Interpreter::execute_statement` and `Interpreter::interpret` in
src/interpreter.rs.  The two mutually recursive Rust shapes (one statement;
a sequence, as in a block body or `interpret`'s loop) are merged into one
function over a sum so that the recursion is structural on the fuel; fuel
at least the nesting depth times the statement count reaches the Rust
behavior.  The `Stmt::Block` arm mirrors the source: remember the current
environment (`previous`), point the current environment's `enclosing` at a
clone of it, run the inner statements, and reinstate `previous` only after
the loop completes without an error (a `?` error skips the
reinstatement). -/
def execS : Nat → Stmt ⊕ List Stmt → InterpState → Except String Unit × InterpState
  | 0, _, st => (.error "out of fuel", st)
  | _ + 1, .inl (.expression e), st =>
      match evalExpr e st with
      | (.error err, st1) => (.error err, st1)
      | (.ok _, st1) => (.ok (), st1)
  | _ + 1, .inl (.print e), st =>
      match evalExpr e st with
      | (.error err, st1) => (.error err, st1)
      | (.ok v, st1) => (.ok (), { st1 with output := st1.output ++ [v.display] })
  | _ + 1, .inl (.var name e), st =>
      match evalExpr e st with
      | (.error err, st1) => (.error err, st1)
      | (.ok v, st1) =>
          (.ok (), { st1 with environment := st1.environment.define name.lexeme v })
  | fuel + 1, .inl (.block ss), st =>
      let previous := st.environment
      let st1 : InterpState :=
        { st with environment := .mk st.environment.values (some previous) }
      match execS fuel (.inr ss) st1 with
      | (.error err, st2) => (.error err, st2)
      | (.ok (), st2) => (.ok (), { st2 with environment := previous })
  | _ + 1, .inr [], st => (.ok (), st)
  | fuel + 1, .inr (s :: rest), st =>
      match execS fuel (.inl s) st with
      | (.error err, st1) => (.error err, st1)
      | (.ok (), st1) => execS fuel (.inr rest) st1

/-- Execution of one statement (`Interpreter::execute_statement`). -/
def execStmt (fuel : Nat) (s : Stmt) (st : InterpState) :
    Except String Unit × InterpState :=
  execS fuel (.inl s) st

/-- Execution of a statement sequence (`Interpreter::interpret`). -/
def interpret (fuel : Nat) (statements : List Stmt) (st : InterpState) :
    Except String Unit × InterpState :=
  execS fuel (.inr statements) st

/-- Scanner state, from `struct Scanner` in src/scanner.rs.  The source text
is modelled as the character list of the Rust `String`; the staged sources
index it both by `chars().nth` and by byte-range slices, which agree on the
ASCII inputs every theorem below scans. -/
structure ScanState where
  tokens : List Token
  start : Nat
  current : Nat
  line : Nat
deriving Repr

/-- Substring `src[start..stop]` as a string. -/
def strSlice (src : List Char) (start stop : Nat) : String :=
  String.mk ((src.drop start).take (stop - start))

/-- From `Scanner::peek`: the current character, or `\0` at the end. -/
def scanPeek (src : List Char) (current : Nat) : Char :=
  if src.length ≤ current then '\x00' else src.getD current '\x00'

/-- From `Scanner::peek_next`. -/
def scanPeekNext (src : List Char) (current : Nat) : Char :=
  if src.length ≤ current + 1 then '\x00' else src.getD (current + 1) '\x00'

/-- From `Scanner::match_char`: conditionally consume one expected
character, returning whether it matched plus the new position. -/
def scanMatchChar (src : List Char) (current : Nat) (expected : Char) : Bool × Nat :=
  if src.length ≤ current then (false, current)
  else if src.getD current '\x00' != expected then (false, current)
  else (true, current + 1)

/-- The `while` loop of the `//` comment arm of `Scanner::scan_token`. -/
def lineCommentLoop : Nat → List Char → Nat → Nat
  | 0, _, current => current
  | fuel + 1, src, current =>
      if (scanPeek src current != '\n') && (current < src.length) then
        lineCommentLoop fuel src (current + 1)
      else current

/-- The `while` loop of the `/*` comment arm of `Scanner::scan_token`;
returns the position and line after the loop. -/
def blockCommentLoop : Nat → List Char → Nat → Nat → Nat × Nat
  | 0, _, current, line => (current, line)
  | fuel + 1, src, current, line =>
      if (scanPeek src current != '*') && (scanPeekNext src current != '/')
          && (current < src.length) then
        blockCommentLoop fuel src (current + 1)
          (if scanPeek src current == '\n' then line + 1 else line)
      else (current, line)

/-- The `while` loop of `Scanner::string`. -/
def stringLoop : Nat → List Char → Nat → Nat → Nat × Nat
  | 0, _, current, line => (current, line)
  | fuel + 1, src, current, line =>
      if (scanPeek src current != '\x22') && (current < src.length) then
        stringLoop fuel src (current + 1)
          (if scanPeek src current == '\n' then line + 1 else line)
      else (current, line)

/-- The digit-consuming loops of `Scanner::number`. -/
def digitsLoop : Nat → List Char → Nat → Nat
  | 0, _, current => current
  | fuel + 1, src, current =>
      if (scanPeek src current).isDigit then digitsLoop fuel src (current + 1)
      else current

/-- The `while` loop of `Scanner::identifier`. -/
def identLoop : Nat → List Char → Nat → Nat
  | 0, _, current => current
  | fuel + 1, src, current =>
      if (scanPeek src current).isAlphanum || (scanPeek src current == '_') then
        identLoop fuel src (current + 1)
      else current

/-- Numeric value of a digit string. -/
def digitsVal (cs : List Char) : Nat :=
  cs.foldl (fun a c => a * 10 + (c.toNat - 48)) 0

/-- Value of a scanned number lexeme (`digits ('.' digits)?`), modelling
`str::parse::<f64>` on exactly the lexemes `Scanner::number` produces.
Exact for every lexeme whose value is representable in `f64` (in
particular all integral ones the theorems below scan). -/
def parseDecimal (cs : List Char) : ℚ :=
  let intPart := cs.takeWhile (· != '.')
  let rest := cs.dropWhile (· != '.')
  match rest with
  | [] => (digitsVal intPart : ℚ)
  | _ :: frac => (digitsVal intPart : ℚ) + (digitsVal frac : ℚ) / (10 : ℚ) ^ frac.length

/-- The reserved-word table of `Scanner::identifier`. -/
def checkKeyword (text : String) : TokenType :=
  match text with
  | "and" => .and_
  | "class" => .class_
  | "else" => .else_
  | "false" => .false_
  | "for" => .for_
  | "fun" => .fun_
  | "if" => .if_
  | "nil" => .nil
  | "or" => .or_
  | "print" => .print
  | "return" => .return_
  | "super" => .super_
  | "this" => .this_
  | "true" => .true_
  | "var" => .var_
  | "while" => .while_
  | _ => .identifier text

/-- From `Scanner::add_token`: push a token whose lexeme is the source
slice `start..current`. -/
def add_token (src : List Char) (start current line : Nat) (tokens : List Token)
    (tt : TokenType) : List Token :=
  tokens ++ [⟨tt, strSlice src start current, line⟩]

/-- From `Scanner::scan_token`: scan one token starting at `st.current`
(with `st.start` already reset by the caller).  The error-reporting calls
(`rlox::error`) only print; here an error path simply adds no token, as in
the source. -/
def scan_token (src : List Char) (st : ScanState) : ScanState :=
  let c := src.getD st.current '\x00'
  let cur := st.current + 1
  match c with
  | '(' => { st with current := cur, tokens := add_token src st.start cur st.line st.tokens .leftParen }
  | ')' => { st with current := cur, tokens := add_token src st.start cur st.line st.tokens .rightParen }
  | '\x7b' => { st with current := cur, tokens := add_token src st.start cur st.line st.tokens .leftBrace }
  | '\x7d' => { st with current := cur, tokens := add_token src st.start cur st.line st.tokens .rightBrace }
  | ',' => { st with current := cur, tokens := add_token src st.start cur st.line st.tokens .comma }
  | '.' => { st with current := cur, tokens := add_token src st.start cur st.line st.tokens .dot }
  | '-' => { st with current := cur, tokens := add_token src st.start cur st.line st.tokens .minus }
  | '+' => { st with current := cur, tokens := add_token src st.start cur st.line st.tokens .plus }
  | ';' => { st with current := cur, tokens := add_token src st.start cur st.line st.tokens .semicolon }
  | '*' => { st with current := cur, tokens := add_token src st.start cur st.line st.tokens .star }
  | '!' =>
      let (m, cur2) := scanMatchChar src cur '='
      { st with current := cur2,
                  tokens := add_token src st.start cur2 st.line st.tokens
                    (if m then .bangEqual else .bang) }
  | '=' =>
      let (m, cur2) := scanMatchChar src cur '='
      { st with current := cur2,
                  tokens := add_token src st.start cur2 st.line st.tokens
                    (if m then .equalEqual else .equal) }
  | '>' =>
      let (m, cur2) := scanMatchChar src cur '='
      { st with current := cur2,
                  tokens := add_token src st.start cur2 st.line st.tokens
                    (if m then .greaterEqual else .greater) }
  | '<' =>
      let (m, cur2) := scanMatchChar src cur '='
      { st with current := cur2,
                  tokens := add_token src st.start cur2 st.line st.tokens
                    (if m then .lessEqual else .less) }
  | '?' => { st with current := cur, tokens := add_token src st.start cur st.line st.tokens .questionMark }
  | ':' => { st with current := cur, tokens := add_token src st.start cur st.line st.tokens .colon }
  | '/' =>
      let (m1, cur2) := scanMatchChar src cur '/'
      if m1 then
        { st with current := lineCommentLoop (src.length + 1) src cur2 }
      else
        let (m2, cur3) := scanMatchChar src cur '*'
        if m2 then
          let (cur4, line4) := blockCommentLoop (src.length + 1) src cur3 st.line
          if src.length ≤ cur4 then { st with current := cur4, line := line4 }
          else { st with current := cur4 + 2, line := line4 }
        else
          { st with current := cur, tokens := add_token src st.start cur st.line st.tokens .slash }
  | ' ' => { st with current := cur }
  | '\r' => { st with current := cur }
  | '\t' => { st with current := cur }
  | '\n' => { st with current := cur, line := st.line + 1 }
  | '\x22' =>
      let (cur2, line2) := stringLoop (src.length + 1) src cur st.line
      if src.length ≤ cur2 then { st with current := cur2, line := line2 }
      else
        let cur3 := cur2 + 1
        let value := strSlice src (st.start + 1) (cur3 - 1)
        { st with current := cur3, line := line2,
                    tokens := add_token src st.start cur3 line2 st.tokens (.string value) }
  | c =>
      if c.isDigit then
        let cur2 := digitsLoop (src.length + 1) src cur
        let cur3 :=
          if (scanPeek src cur2 == '.') && (scanPeekNext src cur2).isDigit then
            digitsLoop (src.length + 1) src (cur2 + 1)
          else cur2
        let q := parseDecimal ((src.drop st.start).take (cur3 - st.start))
        { st with current := cur3, tokens := add_token src st.start cur3 st.line st.tokens (.number q) }
      else if c.isAlpha || c == '_' then
        let cur2 := identLoop (src.length + 1) src cur
        let text := strSlice src st.start cur2
        { st with current := cur2, tokens := add_token src st.start cur2 st.line st.tokens (checkKeyword text) }
      else { st with current := cur }

/-- The `while !self.is_at_end()` loop of `Scanner::scan_tokens`. -/
def scanTokensLoop : Nat → List Char → ScanState → ScanState
  | 0, _, st => st
  | fuel + 1, src, st =>
      if src.length ≤ st.current then st
      else scanTokensLoop fuel src (scan_token src { st with start := st.current })

/-- From `Scanner::scan_tokens`: scan the whole source and append the
end-of-input token.  `scan_token` always advances, so `length + 1` rounds of
fuel replicate the Rust loop. -/
def scan_tokens (source : String) : List Token :=
  let src := source.toList
  let st := scanTokensLoop (src.length + 1) src ⟨[], 0, 0, 1⟩
  st.tokens ++ [⟨.eof, "", st.line⟩]

/-- From `Parser::peek` in src/parser.rs.  Rust indexes
`self.tokens[self.current]` and would panic out of bounds; `scan_tokens`
terminates every token list with `Eof` and the parser never advances past
it, so the default here is never read on scanner-produced input. -/
def peekTok (tokens : List Token) (current : Nat) : Token :=
  tokens.getD current ⟨.eof, "", 0⟩

/-- From `Parser::previous`. -/
def previousTok (tokens : List Token) (current : Nat) : Token :=
  tokens.getD (current - 1) ⟨.eof, "", 0⟩

/-- From `Parser::is_at_end`. -/
def p_is_at_end (tokens : List Token) (current : Nat) : Bool :=
  (peekTok tokens current).token_type == .eof

/-- From `Parser::check`. -/
def checkTok (tokens : List Token) (current : Nat) (tt : TokenType) : Bool :=
  if p_is_at_end tokens current then false
  else (peekTok tokens current).token_type == tt

/-- From `Parser::advance`: step unless at the end, and return `previous()`
of the new position. -/
def advanceTok (tokens : List Token) (current : Nat) : Token × Nat :=
  let c' := if p_is_at_end tokens current then current else current + 1
  (previousTok tokens c', c')

/-- From `Parser::match_token`: consume the current token when its type is
one of the given types. -/
def match_token (tokens : List Token) (current : Nat) (tts : List TokenType) : Bool × Nat :=
  if tts.any (fun tt => checkTok tokens current tt) then
    (true, (advanceTok tokens current).2)
  else (false, current)

/-- From `Parser::consume` (the `Parser::error` call only prints). -/
def consume (tokens : List Token) (current : Nat) (tt : TokenType) (message : String) :
    Except String (Token × Nat) :=
  if checkTok tokens current tt then .ok (advanceTok tokens current)
  else .error message

mutual

/-- From `Parser::expression` in src/parser.rs (`expression -> comma`). -/
def expression : Nat → List Token → Nat → Except String (Expr × Nat)
  | 0, _, _ => .error "out of fuel"
  | fuel + 1, tokens, current => comma fuel tokens current
termination_by structural fuel => fuel

/-- From `Parser::comma` (`comma -> assignment ( "," assignment )*`). -/
def comma : Nat → List Token → Nat → Except String (Expr × Nat)
  | 0, _, _ => .error "out of fuel"
  | fuel + 1, tokens, current =>
      match assignment fuel tokens current with
      | .error e => .error e
      | .ok (expr, c1) => commaLoop fuel tokens c1 expr
termination_by structural fuel => fuel

/-- The `while` loop of `Parser::comma`, folding `Binary` nodes to the
left. -/
def commaLoop : Nat → List Token → Nat → Expr → Except String (Expr × Nat)
  | 0, _, _, _ => .error "out of fuel"
  | fuel + 1, tokens, current, expr =>
      let (m, c1) := match_token tokens current [.comma]
      if m then
        let operator := previousTok tokens c1
        match assignment fuel tokens c1 with
        | .error e => .error e
        | .ok (right, c2) => commaLoop fuel tokens c2 (.binary expr operator right)
      else .ok (expr, current)
termination_by structural fuel => fuel

/-- From `Parser::assignment`
(`assignment -> IDENTIFIER "=" assignment | ternary`): right-recursive, and
only a `Variable` parse result is a legal target. -/
def assignment : Nat → List Token → Nat → Except String (Expr × Nat)
  | 0, _, _ => .error "out of fuel"
  | fuel + 1, tokens, current =>
      match ternary fuel tokens current with
      | .error e => .error e
      | .ok (expr, c1) =>
          let (m, c2) := match_token tokens c1 [.equal]
          if m then
            match assignment fuel tokens c2 with
            | .error e => .error e
            | .ok (value, c3) =>
                match expr with
                | .variable_ name => .ok (.assign name value, c3)
                | _ => .error "Invalid assignment target."
          else .ok (expr, c1)
termination_by structural fuel => fuel

/-- From `Parser::ternary`
(`ternary -> equality ( "?" equality ":" equality )?`): at most one `?:` is
recognized, with the condition and both branches parsed at the equality
level. -/
def ternary : Nat → List Token → Nat → Except String (Expr × Nat)
  | 0, _, _ => .error "out of fuel"
  | fuel + 1, tokens, current =>
      match equality fuel tokens current with
      | .error e => .error e
      | .ok (expr, c1) =>
          let (m, c2) := match_token tokens c1 [.questionMark]
          if m then
            let operator1 := previousTok tokens c2
            match equality fuel tokens c2 with
            | .error e => .error e
            | .ok (middle, c3) =>
                match consume tokens c3 .colon ( "Expect \x27:\x27 after expression.") with
                | .error e => .error e
                | .ok (operator2, c4) =>
                    match equality fuel tokens c4 with
                    | .error e => .error e
                    | .ok (right, c5) =>
                        .ok (.ternary expr operator1 middle operator2 right, c5)
          else .ok (expr, c1)
termination_by structural fuel => fuel

/-- From `Parser::equality`. -/
def equality : Nat → List Token → Nat → Except String (Expr × Nat)
  | 0, _, _ => .error "out of fuel"
  | fuel + 1, tokens, current =>
      match comparison fuel tokens current with
      | .error e => .error e
      | .ok (expr, c1) => equalityLoop fuel tokens c1 expr
termination_by structural fuel => fuel

/-- The `while` loop of `Parser::equality`. -/
def equalityLoop : Nat → List Token → Nat → Expr → Except String (Expr × Nat)
  | 0, _, _, _ => .error "out of fuel"
  | fuel + 1, tokens, current, expr =>
      let (m, c1) := match_token tokens current [.bangEqual, .equalEqual]
      if m then
        let operator := previousTok tokens c1
        match comparison fuel tokens c1 with
        | .error e => .error e
        | .ok (right, c2) => equalityLoop fuel tokens c2 (.binary expr operator right)
      else .ok (expr, current)
termination_by structural fuel => fuel

/-- From `Parser::comparison`. -/
def comparison : Nat → List Token → Nat → Except String (Expr × Nat)
  | 0, _, _ => .error "out of fuel"
  | fuel + 1, tokens, current =>
      match addition fuel tokens current with
      | .error e => .error e
      | .ok (expr, c1) => comparisonLoop fuel tokens c1 expr
termination_by structural fuel => fuel

/-- The `while` loop of `Parser::comparison`. -/
def comparisonLoop : Nat → List Token → Nat → Expr → Except String (Expr × Nat)
  | 0, _, _, _ => .error "out of fuel"
  | fuel + 1, tokens, current, expr =>
      let (m, c1) := match_token tokens current
          [.greater, .greaterEqual, .less, .lessEqual]
      if m then
        let operator := previousTok tokens c1
        match addition fuel tokens c1 with
        | .error e => .error e
        | .ok (right, c2) => comparisonLoop fuel tokens c2 (.binary expr operator right)
      else .ok (expr, current)
termination_by structural fuel => fuel

/-- From `Parser::addition`. -/
def addition : Nat → List Token → Nat → Except String (Expr × Nat)
  | 0, _, _ => .error "out of fuel"
  | fuel + 1, tokens, current =>
      match multiplication fuel tokens current with
      | .error e => .error e
      | .ok (expr, c1) => additionLoop fuel tokens c1 expr
termination_by structural fuel => fuel

/-- The `while` loop of `Parser::addition`, folding `Binary` nodes with the
earlier operand as the left child. -/
def additionLoop : Nat → List Token → Nat → Expr → Except String (Expr × Nat)
  | 0, _, _, _ => .error "out of fuel"
  | fuel + 1, tokens, current, expr =>
      let (m, c1) := match_token tokens current [.minus, .plus]
      if m then
        let operator := previousTok tokens c1
        match multiplication fuel tokens c1 with
        | .error e => .error e
        | .ok (right, c2) => additionLoop fuel tokens c2 (.binary expr operator right)
      else .ok (expr, current)
termination_by structural fuel => fuel

/-- From `Parser::multiplication`. -/
def multiplication : Nat → List Token → Nat → Except String (Expr × Nat)
  | 0, _, _ => .error "out of fuel"
  | fuel + 1, tokens, current =>
      match unary fuel tokens current with
      | .error e => .error e
      | .ok (expr, c1) => multiplicationLoop fuel tokens c1 expr
termination_by structural fuel => fuel

/-- The `while` loop of `Parser::multiplication`. -/
def multiplicationLoop : Nat → List Token → Nat → Expr → Except String (Expr × Nat)
  | 0, _, _, _ => .error "out of fuel"
  | fuel + 1, tokens, current, expr =>
      let (m, c1) := match_token tokens current [.slash, .star]
      if m then
        let operator := previousTok tokens c1
        match unary fuel tokens c1 with
        | .error e => .error e
        | .ok (right, c2) => multiplicationLoop fuel tokens c2 (.binary expr operator right)
      else .ok (expr, current)
termination_by structural fuel => fuel

/-- From `Parser::unary` (`unary -> ("!"|"-") unary | primary`). -/
def unary : Nat → List Token → Nat → Except String (Expr × Nat)
  | 0, _, _ => .error "out of fuel"
  | fuel + 1, tokens, current =>
      let (m, c1) := match_token tokens current [.bang, .minus]
      if m then
        let operator := previousTok tokens c1
        match unary fuel tokens c1 with
        | .error e => .error e
        | .ok (right, c2) => .ok (.unary operator right, c2)
      else primary fuel tokens current
termination_by structural fuel => fuel

/-- From `Parser::primary`. -/
def primary : Nat → List Token → Nat → Except String (Expr × Nat)
  | 0, _, _ => .error "out of fuel"
  | fuel + 1, tokens, current =>
      match (peekTok tokens current).token_type with
      | .false_ | .true_ | .nil | .number _ | .string _ =>
          let (t, c1) := advanceTok tokens current
          .ok (.literal t, c1)
      | .identifier _ =>
          let (t, c1) := advanceTok tokens current
          .ok (.variable_ t, c1)
      | .leftParen =>
          let (_, c1) := advanceTok tokens current
          match expression fuel tokens c1 with
          | .error e => .error e
          | .ok (expr, c2) =>
              match consume tokens c2 .rightParen
                  ( "Expect \x27)\x27 after expression.") with
              | .error e => .error e
              | .ok (_, c3) => .ok (.grouping expr, c3)
      | _ => .error "Expect expression."
termination_by structural fuel => fuel

end

mutual

/-- From `Parser::declaration` (`declaration -> varDecl | statement`). -/
def declaration : Nat → List Token → Nat → Except String (Stmt × Nat)
  | 0, _, _ => .error "out of fuel"
  | fuel + 1, tokens, current =>
      let (m, c1) := match_token tokens current [.var_]
      if m then var_declaration fuel tokens c1
      else statement fuel tokens c1
termination_by structural fuel => fuel

/-- From `Parser::var_declaration`. -/
def var_declaration : Nat → List Token → Nat → Except String (Stmt × Nat)
  | 0, _, _ => .error "out of fuel"
  | fuel + 1, tokens, current =>
      match (peekTok tokens current).token_type with
      | .identifier _ =>
          let (name, c1) := advanceTok tokens current
          let (m, c2) := match_token tokens c1 [.equal]
          let initializer : Except String (Expr × Nat) :=
            if m then expression fuel tokens c2
            else .ok (.literal ⟨.nil, "nil", 0⟩, c2)
          match initializer with
          | .error e => .error e
          | .ok (init, c3) =>
              match consume tokens c3 .semicolon
                  ( "Expect \x27;\x27 after variable declaration.") with
              | .error e => .error e
              | .ok (_, c4) => .ok (.var name init, c4)
      | _ => .error "Expect variable name."

/-- From `Parser::statement`
(`statement -> exprStmt | printStmt | block`). -/
def statement : Nat → List Token → Nat → Except String (Stmt × Nat)
  | 0, _, _ => .error "out of fuel"
  | fuel + 1, tokens, current =>
      let (m1, c1) := match_token tokens current [.print]
      if m1 then print_statement fuel tokens c1
      else
        let (m2, c2) := match_token tokens c1 [.leftBrace]
        if m2 then block fuel tokens c2
        else expression_statement fuel tokens c2
termination_by structural fuel => fuel

/-- The `while` loop of `Parser::block`.  On a declaration error the source
calls `synchronize` (which only moves the cursor) and returns the error. -/
def blockLoop : Nat → List Token → Nat → List Stmt → Except String (List Stmt × Nat)
  | 0, _, _, _ => .error "out of fuel"
  | fuel + 1, tokens, current, acc =>
      if !(checkTok tokens current .rightBrace) && !(p_is_at_end tokens current) then
        match declaration fuel tokens current with
        | .error message => .error message
        | .ok (stmt, c1) => blockLoop fuel tokens c1 (acc ++ [stmt])
      else .ok (acc, current)
termination_by structural fuel => fuel

/-- From `Parser::block` (`block -> "{" declaration* "}"`). -/
def block : Nat → List Token → Nat → Except String (Stmt × Nat)
  | 0, _, _ => .error "out of fuel"
  | fuel + 1, tokens, current =>
      match blockLoop fuel tokens current [] with
      | .error e => .error e
      | .ok (statements, c1) =>
          match consume tokens c1 .rightBrace
              ( "Expect \x27\x7d\x27 after block.") with
          | .error e => .error e
          | .ok (_, c2) => .ok (.block statements, c2)
termination_by structural fuel => fuel

/-- From `Parser::print_statement`. -/
def print_statement : Nat → List Token → Nat → Except String (Stmt × Nat)
  | 0, _, _ => .error "out of fuel"
  | fuel + 1, tokens, current =>
      match expression fuel tokens current with
      | .error e => .error e
      | .ok (value, c1) =>
          match consume tokens c1 .semicolon
              ( "Expect \x27;\x27 after expression.") with
          | .error e => .error e
          | .ok (_, c2) => .ok (.print value, c2)

/-- From `Parser::expression_statement`. -/
def expression_statement : Nat → List Token → Nat → Except String (Stmt × Nat)
  | 0, _, _ => .error "out of fuel"
  | fuel + 1, tokens, current =>
      match expression fuel tokens current with
      | .error e => .error e
      | .ok (expr, c1) =>
          match consume tokens c1 .semicolon
              ( "Expect \x27;\x27 after expression.") with
          | .error e => .error e
          | .ok (_, c2) => .ok (.expression expr, c2)

end

/-- The `while` loop of `Parser::synchronize`. -/
def syncLoop : Nat → List Token → Nat → Nat
  | 0, _, current => current
  | fuel + 1, tokens, current =>
      if p_is_at_end tokens current then current
      else if (previousTok tokens current).token_type == .semicolon then current
      else
        match (peekTok tokens current).token_type with
        | .class_ | .fun_ | .var_ | .for_ | .if_ | .while_ | .print | .return_ => current
        | _ => syncLoop fuel tokens (advanceTok tokens current).2

/-- From `Parser::synchronize`: skip to a statement boundary; only the
cursor moves. -/
def synchronize (tokens : List Token) (current : Nat) : Nat :=
  syncLoop (tokens.length + 1) tokens (advanceTok tokens current).2

/-- Fuel that dominates the recursion depth of the parser on a given token
list: the grammar has a fixed number of levels between token-consuming
steps, so the call depth is linear in the token count. -/
def parserFuel (tokens : List Token) : Nat :=
  16 * (tokens.length + 2)

/-- The `while` loop of `Parser::parse`: collect declarations until the end
of input; on the first error, synchronize (cursor only) and return the
error. -/
def parseLoop : Nat → List Token → Nat → List Stmt → Except String (List Stmt)
  | 0, _, _, _ => .error "out of fuel"
  | fuel + 1, tokens, current, acc =>
      if p_is_at_end tokens current then .ok acc
      else
        match declaration (parserFuel tokens) tokens current with
        | .error message =>
            let _ := synchronize tokens current
            .error message
        | .ok (stmt, c1) => parseLoop fuel tokens c1 (acc ++ [stmt])

/-- From `Parser::parse` (`program -> declaration* EOF`). -/
def parse (tokens : List Token) : Except String (List Stmt) :=
  parseLoop (tokens.length + 1) tokens 0 []

/-- The public expression-only entry point (`Parser::expression` as the
REPL and the staged tests use it, starting at position 0). -/
def parseExpression (tokens : List Token) : Except String (Expr × Nat) :=
  expression (parserFuel tokens) tokens 0

/-- Whether a value is a `Number` (used to state the type-error claims). -/
def Value.isNumber : Value → Bool
  | .number _ => true
  | _ => false

/-- Whether an evaluation result is one of the interpreter type-mismatch
errors: every such message starts with "Unexpected" ("Unexpected token
type: ..." or "Unexpected values: ..."), unlike the division and
undefined-variable errors. -/
def isUnexpectedErr (r : Except String Value) : Prop :=
  ∃ rest, r = .error ( "Unexpected" ++ rest)

/-- Whether an expression is a `Ternary` node at its root (used to state the
non-chaining claim about the ternary grammar level). -/
def isTernaryNode : Expr → Bool
  | .ternary _ _ _ _ _ => true
  | _ => false

end RLox

namespace RLox

/-- Every lookup on an environment chain either resolves to a value or fails
with exactly the undefined-variable message naming the variable, mirroring
`Environment::get`. -/
theorem get_ok_or_undefined :
    ∀ (env : Environment) (n : String),
      (∃ v, env.get n = .ok v) ∨
        env.get n = .error ( "Undefined variable \x27" ++ n ++ "\x27.")
  | .mk values none, n => by
      cases h : mapGet values n with
      | some v => exact .inl ⟨v, by simp [Environment.get, h]⟩
      | none => exact .inr (by simp [Environment.get, h])
  | .mk values (some enc), n => by
      cases h : mapGet values n with
      | some v => exact .inl ⟨v, by simp [Environment.get, h]⟩
      | none =>
          have := get_ok_or_undefined enc n
          simpa [Environment.get, h] using this

/-- Inserting twice under the same key leaves exactly the second value, the
`HashMap::insert` replacement behavior on the association-list model. -/
theorem mapInsert_mapInsert (m : List (String × Value)) (k : String) (v1 v2 : Value) :
    mapInsert (mapInsert m k v1) k v2 = mapInsert m k v2 := by
  induction m with
  | nil => simp [mapInsert]
  | cons hd tl ih =>
      obtain ⟨k', v'⟩ := hd
      by_cases h : k' = k
      · simp [mapInsert, h]
      · simp [mapInsert, h, ih]

/-- Lookup after insertion under the same key yields the inserted value. -/
theorem mapGet_mapInsert_self (m : List (String × Value)) (k : String) (v : Value) :
    mapGet (mapInsert m k v) k = some v := by
  induction m with
  | nil => simp [mapInsert, mapGet]
  | cons hd tl ih =>
      obtain ⟨k', v'⟩ := hd
      by_cases h : k' = k
      · simp [mapInsert, h, mapGet]
      · simp [mapInsert, h, mapGet, ih]

/-- Messages of the shape the arithmetic arms produce for an unsupported
operator are type-mismatch errors (they start with "Unexpected"). -/
theorem unexpectedTokenTypeMsg (d : String) :
    isUnexpectedErr (.error ( "Unexpected token type: \x27" ++ d
      ++ "\x27 for Binary Expression")) :=
  ⟨ " token type: \x27" ++ d ++ "\x27 for Binary Expression",
    congrArg Except.error (by
      rw [show ( "Unexpected token type: \x27" : String) =
          "Unexpected" ++ " token type: \x27" from rfl]
      simp only [String.append_assoc])⟩

/-- Messages of the shape the arithmetic arms produce for unsupported
operand values are type-mismatch errors (they start with "Unexpected"). -/
theorem unexpectedValuesMsg (a b c d e : String) :
    isUnexpectedErr (.error ( "Unexpected values: \x27" ++ a ++ "\x27 and \x27" ++ b
      ++ "\x27 for Binary Expression: " ++ c ++ " " ++ d ++ " " ++ e)) :=
  ⟨ " values: \x27" ++ a ++ "\x27 and \x27" ++ b
      ++ "\x27 for Binary Expression: " ++ c ++ " " ++ d ++ " " ++ e,
    congrArg Except.error (by
      rw [show ( "Unexpected values: \x27" : String) =
          "Unexpected" ++ " values: \x27" from rfl]
      simp only [String.append_assoc])⟩

/-- No parser level below the ternary rule ever returns an expression whose
root is a `Ternary` node: `primary` builds literals, variables, groupings;
`unary` builds `Unary` nodes; the binary fold levels build `Binary` nodes.
Proved simultaneously for all ten mutually recursive functions by induction
on the fuel. -/
theorem parser_no_ternary_top :
    ∀ fuel : Nat,
      (∀ tokens current e c, primary fuel tokens current = .ok (e, c) →
          isTernaryNode e = false) ∧
      (∀ tokens current e c, unary fuel tokens current = .ok (e, c) →
          isTernaryNode e = false) ∧
      (∀ tokens current acc e c, isTernaryNode acc = false →
          multiplicationLoop fuel tokens current acc = .ok (e, c) → isTernaryNode e = false) ∧
      (∀ tokens current e c, multiplication fuel tokens current = .ok (e, c) →
          isTernaryNode e = false) ∧
      (∀ tokens current acc e c, isTernaryNode acc = false →
          additionLoop fuel tokens current acc = .ok (e, c) → isTernaryNode e = false) ∧
      (∀ tokens current e c, addition fuel tokens current = .ok (e, c) →
          isTernaryNode e = false) ∧
      (∀ tokens current acc e c, isTernaryNode acc = false →
          comparisonLoop fuel tokens current acc = .ok (e, c) → isTernaryNode e = false) ∧
      (∀ tokens current e c, comparison fuel tokens current = .ok (e, c) →
          isTernaryNode e = false) ∧
      (∀ tokens current acc e c, isTernaryNode acc = false →
          equalityLoop fuel tokens current acc = .ok (e, c) → isTernaryNode e = false) ∧
      (∀ tokens current e c, equality fuel tokens current = .ok (e, c) →
          isTernaryNode e = false) := by
  intro fuel
  induction fuel with
  | zero =>
      refine ⟨?_, ?_, ?_, ?_, ?_, ?_, ?_, ?_, ?_, ?_⟩ <;> intros <;>
        simp_all [primary, unary, multiplicationLoop, multiplication, additionLoop,
          addition, comparisonLoop, comparison, equalityLoop, equality]
  | succ f ih =>
      obtain ⟨ihP, ihU, ihML, ihM, ihAL, ihA, ihCL, ihC, ihEL, ihE⟩ := ih
      have hP : ∀ tokens current e c, primary (f + 1) tokens current = .ok (e, c) →
          isTernaryNode e = false := by
        intro tokens current e c h
        simp only [primary] at h
        split at h <;>
          first
            | (simp only [Except.ok.injEq, Prod.mk.injEq] at h
               obtain ⟨rfl, -⟩ := h
               rfl)
            | simp at h
            | (split at h <;>
                first
                  | simp at h
                  | (split at h <;>
                      first
                        | (simp only [Except.ok.injEq, Prod.mk.injEq] at h
                           obtain ⟨rfl, -⟩ := h
                           rfl)
                        | simp at h))
      have hU : ∀ tokens current e c, unary (f + 1) tokens current = .ok (e, c) →
          isTernaryNode e = false := by
        intro tokens current e c h
        simp only [unary] at h
        split at h
        · split at h
          · simp at h
          · simp only [Except.ok.injEq, Prod.mk.injEq] at h
            obtain ⟨rfl, -⟩ := h
            rfl
        · exact ihP _ _ _ _ h
      have hML : ∀ tokens current acc e c, isTernaryNode acc = false →
          multiplicationLoop (f + 1) tokens current acc = .ok (e, c) →
          isTernaryNode e = false := by
        intro tokens current acc e c hacc h
        simp only [multiplicationLoop] at h
        split at h
        · split at h
          · simp at h
          · refine ihML _ _ _ _ _ ?_ h
            rfl
        · simp only [Except.ok.injEq, Prod.mk.injEq] at h
          obtain ⟨rfl, -⟩ := h
          exact hacc
      have hM : ∀ tokens current e c, multiplication (f + 1) tokens current = .ok (e, c) →
          isTernaryNode e = false := by
        intro tokens current e c h
        simp only [multiplication] at h
        split at h
        · simp at h
        · rename_i expr c1 heq
          exact ihML _ _ _ _ _ (ihU _ _ _ _ heq) h
      have hAL : ∀ tokens current acc e c, isTernaryNode acc = false →
          additionLoop (f + 1) tokens current acc = .ok (e, c) →
          isTernaryNode e = false := by
        intro tokens current acc e c hacc h
        simp only [additionLoop] at h
        split at h
        · split at h
          · simp at h
          · refine ihAL _ _ _ _ _ ?_ h
            rfl
        · simp only [Except.ok.injEq, Prod.mk.injEq] at h
          obtain ⟨rfl, -⟩ := h
          exact hacc
      have hA : ∀ tokens current e c, addition (f + 1) tokens current = .ok (e, c) →
          isTernaryNode e = false := by
        intro tokens current e c h
        simp only [addition] at h
        split at h
        · simp at h
        · rename_i expr c1 heq
          exact ihAL _ _ _ _ _ (ihM _ _ _ _ heq) h
      have hCL : ∀ tokens current acc e c, isTernaryNode acc = false →
          comparisonLoop (f + 1) tokens current acc = .ok (e, c) →
          isTernaryNode e = false := by
        intro tokens current acc e c hacc h
        simp only [comparisonLoop] at h
        split at h
        · split at h
          · simp at h
          · refine ihCL _ _ _ _ _ ?_ h
            rfl
        · simp only [Except.ok.injEq, Prod.mk.injEq] at h
          obtain ⟨rfl, -⟩ := h
          exact hacc
      have hC : ∀ tokens current e c, comparison (f + 1) tokens current = .ok (e, c) →
          isTernaryNode e = false := by
        intro tokens current e c h
        simp only [comparison] at h
        split at h
        · simp at h
        · rename_i expr c1 heq
          exact ihCL _ _ _ _ _ (ihA _ _ _ _ heq) h
      have hEL : ∀ tokens current acc e c, isTernaryNode acc = false →
          equalityLoop (f + 1) tokens current acc = .ok (e, c) →
          isTernaryNode e = false := by
        intro tokens current acc e c hacc h
        simp only [equalityLoop] at h
        split at h
        · split at h
          · simp at h
          · refine ihEL _ _ _ _ _ ?_ h
            rfl
        · simp only [Except.ok.injEq, Prod.mk.injEq] at h
          obtain ⟨rfl, -⟩ := h
          exact hacc
      have hE : ∀ tokens current e c, equality (f + 1) tokens current = .ok (e, c) →
          isTernaryNode e = false := by
        intro tokens current e c h
        simp only [equality] at h
        split at h
        · simp at h
        · rename_i expr c1 heq
          exact ihEL _ _ _ _ _ (ihC _ _ _ _ heq) h
      exact ⟨hP, hU, hML, hM, hAL, hA, hCL, hC, hEL, hE⟩

/-- The `equality` level never returns an expression whose root is a
`Ternary` node (projection of `parser_no_ternary_top`). -/
theorem equality_no_ternary_top (fuel : Nat) :
    ∀ tokens current e c, equality fuel tokens current = .ok (e, c) →
      isTernaryNode e = false :=
  (parser_no_ternary_top fuel).2.2.2.2.2.2.2.2.2

end RLox

namespace RLox

/-- C1 counterexample: on a chain where `x` is bound only in the enclosing
scope, evaluating `Assign` does not mutate the enclosing binding (it still
maps `x` to 1); it creates a new shadowing binding for `x` in the innermost
scope instead, refuting the claim that the nearest enclosing scope holding
the name is mutated. -/
theorem assign_outer_binding_not_mutated :
    evalExpr (.assign ⟨.identifier "x", "x", 1⟩ (.literal ⟨.number 2, "2", 1⟩))
        ⟨.mk [] (some (.mk [("x", .number 1)] none)), []⟩ =
      (.ok (.number 2),
        ⟨.mk [("x", .number 2)] (some (.mk [("x", .number 1)] none)), []⟩) := by
  rfl

/-- C1 (amended): evaluating `Assign(name, valueExpr)` first evaluates
`valueExpr` (an error there propagates); then, if `name` resolves anywhere
on the environment chain, the value is inserted into the innermost
environment map (not the enclosing scope that held it) and returned, and
if `name` is not declared anywhere on the chain the assignment fails with
the UndefinedVariable error naming the variable. -/
theorem assign_checks_chain_then_inserts_innermost :
    ∀ (name : Token) (ve : Expr) (st : InterpState),
      (∀ e st1, evalExpr ve st = (.error e, st1) →
          evalExpr (.assign name ve) st = (.error e, st1)) ∧
      (∀ v st1, evalExpr ve st = (.ok v, st1) →
        ((∃ w, st1.environment.get name.lexeme = .ok w) →
            evalExpr (.assign name ve) st =
              (.ok v, { st1 with environment := st1.environment.insert name.lexeme v })) ∧
        (st1.environment.get name.lexeme =
              .error ( "Undefined variable \x27" ++ name.lexeme ++ "\x27.") →
            evalExpr (.assign name ve) st =
              (.error ( "Undefined variable \x27" ++ name.lexeme ++ "\x27."), st1))) := by
  intro name ve st
  constructor
  · intro e st1 h
    simp [evalExpr, h]
  · intro v st1 h
    constructor
    · rintro ⟨w, hw⟩
      simp [evalExpr, h, Environment.assign, hw, Environment.define]
    · intro hw
      simp [evalExpr, h, Environment.assign, hw]

/-- C1 witness: assigning to `y` where the innermost scope already binds it
checks the chain, stores into the innermost map and returns the value. -/
theorem assign_checks_chain_then_inserts_innermost_witness :
    evalExpr (.assign ⟨.identifier "y", "y", 1⟩ (.literal ⟨.number 5, "5", 1⟩))
        ⟨.mk [("y", .number 1)] none, []⟩ =
      (.ok (.number 5), ⟨.mk [("y", .number 5)] none, []⟩) :=
  ((assign_checks_chain_then_inserts_innermost ⟨.identifier "y", "y", 1⟩
      (.literal ⟨.number 5, "5", 1⟩) ⟨.mk [("y", .number 1)] none, []⟩).2
    (.number 5) ⟨.mk [("y", .number 1)] none, []⟩ rfl).1 ⟨.number 1, rfl⟩

/-- C2 counterexample: a block whose inner statement fails (1 / 0) returns
the error with the interpreter environment left as the block environment
(its enclosing pointing at the pre-block clone), which differs from the
pre-block environment: the restoration is skipped on the error exit path. -/
theorem block_error_path_environment_not_restored :
    execStmt 9 (.block [.expression (.binary (.literal ⟨.number 1, "1", 1⟩) ⟨.slash, "/", 1⟩
          (.literal ⟨.number 0, "0", 1⟩))]) ⟨.mk [("x", .number 1)] none, []⟩ =
      (.error "Division by zero: 1 / 0",
        ⟨.mk [("x", .number 1)] (some (.mk [("x", .number 1)] none)), []⟩) ∧
    (Environment.mk [("x", .number 1)] (some (.mk [("x", .number 1)] none))) ≠
      .mk [("x", .number 1)] none := by
  constructor
  · rfl
  · intro h
    injection h with h1 h2
    exact Option.noConfusion h2

/-- C2 (amended): executing a Block runs the inner statements in order
against the block environment (same own bindings, enclosing set to a clone
of the pre-block environment) and restores the pre-block environment as
current when the last inner statement completes normally; when a runtime
error propagates out of an inner statement the error is returned with the
environment left as the block environment, not restored. -/
theorem block_restores_environment_only_on_normal_exit :
    ∀ (fuel : Nat) (ss : List Stmt) (st : InterpState),
      (∀ st2, interpret fuel ss
            { st with environment := .mk st.environment.values (some st.environment) } =
            (.ok (), st2) →
          execStmt (fuel + 1) (.block ss) st =
            (.ok (), { st2 with environment := st.environment })) ∧
      (∀ e st2, interpret fuel ss
            { st with environment := .mk st.environment.values (some st.environment) } =
            (.error e, st2) →
          execStmt (fuel + 1) (.block ss) st = (.error e, st2)) := by
  intro fuel ss st
  constructor
  · intro st2 h
    simp only [interpret] at h
    simp [execStmt, execS, h]
  · intro e st2 h
    simp only [interpret] at h
    simp [execStmt, execS, h]

/-- C2 witness: a failing block (2 / 0) exits through the error path with
the block environment, as the amended claim states. -/
theorem block_restores_environment_only_on_normal_exit_witness :
    execStmt 9 (.block [.expression (.binary (.literal ⟨.number 2, "2", 1⟩) ⟨.slash, "/", 1⟩
          (.literal ⟨.number 0, "0", 1⟩))]) ⟨.mk [("y", .number 4)] none, []⟩ =
      (.error "Division by zero: 2 / 0",
        ⟨.mk [("y", .number 4)] (some (.mk [("y", .number 4)] none)), []⟩) :=
  (block_restores_environment_only_on_normal_exit 8
      [.expression (.binary (.literal ⟨.number 2, "2", 1⟩) ⟨.slash, "/", 1⟩
        (.literal ⟨.number 0, "0", 1⟩))] ⟨.mk [("y", .number 4)] none, []⟩).2
    "Division by zero: 2 / 0"
    ⟨.mk [("y", .number 4)] (some (.mk [("y", .number 4)] none)), []⟩ (by rfl)

/-- C3: evaluating `Ternary(cond, ?, mid, :, right)` evaluates all three
sub-expressions eagerly in order (cond, mid, right, threading the state),
then returns mid when cond is truthy and right otherwise; and a runtime
error raised by the right branch propagates as the result of the whole
ternary even though a truthy condition would have selected mid. -/
theorem ternary_eager_evaluation_and_selection :
    ∀ (l m r : Expr) (q c : Token) (st : InterpState),
      q.token_type = .questionMark → c.token_type = .colon →
      ((∀ vl st1 vm st2 vr st3,
          evalExpr l st = (.ok vl, st1) → evalExpr m st1 = (.ok vm, st2) →
          evalExpr r st2 = (.ok vr, st3) →
          evalExpr (.ternary l q m c r) st =
            (.ok (if is_truthy vl then vm else vr), st3)) ∧
       (∀ vl st1 vm st2 e st3,
          evalExpr l st = (.ok vl, st1) → evalExpr m st1 = (.ok vm, st2) →
          evalExpr r st2 = (.error e, st3) →
          evalExpr (.ternary l q m c r) st = (.error e, st3))) := by
  intro l m r q c st hq hc
  constructor
  · intro vl st1 vm st2 vr st3 h1 h2 h3
    simp [evalExpr, h1, h2, h3, hq, hc]
  · intro vl st1 vm st2 e st3 h1 h2 h3
    simp [evalExpr, h1, h2, h3, hq, hc]

/-- C3 witness: `true ? 1 : (1 / 0)` fails with the division error raised
by the non-selected right branch. -/
theorem ternary_eager_evaluation_and_selection_witness :
    evalExpr (.ternary (.literal ⟨.true_, "true", 1⟩) ⟨.questionMark, "?", 1⟩
        (.literal ⟨.number 1, "1", 1⟩) ⟨.colon, ":", 1⟩
        (.binary (.literal ⟨.number 1, "1", 1⟩) ⟨.slash, "/", 1⟩
          (.literal ⟨.number 0, "0", 1⟩)))
      ⟨.mk [] none, []⟩ = (.error "Division by zero: 1 / 0", ⟨.mk [] none, []⟩) :=
  (ternary_eager_evaluation_and_selection (.literal ⟨.true_, "true", 1⟩)
      (.literal ⟨.number 1, "1", 1⟩)
      (.binary (.literal ⟨.number 1, "1", 1⟩) ⟨.slash, "/", 1⟩ (.literal ⟨.number 0, "0", 1⟩))
      ⟨.questionMark, "?", 1⟩ ⟨.colon, ":", 1⟩ ⟨.mk [] none, []⟩ rfl rfl).2
    (.boolean true) ⟨.mk [] none, []⟩ (.number 1) ⟨.mk [] none, []⟩
    "Division by zero: 1 / 0" ⟨.mk [] none, []⟩ rfl rfl rfl

/-- C4: on two Number operands, `/` fails with the DivisionByZero error
exactly when the right operand equals zero (checked before dividing, so no
quotient is ever formed from a zero divisor) and otherwise returns the
quotient; and a division error in the left operand of a comma expression
propagates out of the comma even though comma discards its left value. -/
theorem slash_zero_error_iff_and_comma_propagation :
    (∀ (op : Token) (a b : ℚ), op.token_type = .slash →
        binaryOp op (.number a) (.number b) =
          if b = 0 then
            .error ( "Division by zero: " ++ numToString a ++ " " ++ "/" ++ " "
              ++ numToString b)
          else .ok (.number (a / b))) ∧
    (∀ (op : Token) (a b : ℚ), op.token_type = .slash →
        ((∃ msg, binaryOp op (.number a) (.number b) = .error msg) ↔ b = 0)) ∧
    (∀ (le re : Expr) (opc : Token) (st : InterpState) (e : String) (st1 : InterpState),
        opc.token_type = .comma → evalExpr le st = (.error e, st1) →
        evalExpr (.binary le opc re) st = (.error e, st1)) := by
  refine ⟨?_, ?_, ?_⟩
  · intro op a b hop
    by_cases hb : b = 0
    · simp [binaryOp, hop, hb, ttDisplay]
    · simp [binaryOp, hop, hb]
  · intro op a b hop
    constructor
    · rintro ⟨msg, hmsg⟩
      by_cases hb : b = 0
      · exact hb
      · simp [binaryOp, hop, hb] at hmsg
    · intro hb
      exact ⟨ "Division by zero: " ++ numToString a ++ " " ++ "/" ++ " " ++ numToString b,
        by simp [binaryOp, hop, hb, ttDisplay]⟩
  · intro le re opc st e st1 _ h
    simp [evalExpr, h]

/-- C4 witness: `3 / 0` is the division-by-zero error, and
`3 / 0, 2 + 3` fails with that same error through the comma. -/
theorem slash_zero_error_iff_and_comma_propagation_witness :
    (binaryOp ⟨.slash, "/", 1⟩ (.number 3) (.number 0) =
        .error "Division by zero: 3 / 0") ∧
    evalExpr (.binary (.binary (.literal ⟨.number 3, "3", 1⟩) ⟨.slash, "/", 1⟩
          (.literal ⟨.number 0, "0", 1⟩)) ⟨.comma, ",", 1⟩
        (.binary (.literal ⟨.number 2, "2", 1⟩) ⟨.plus, "+", 1⟩
          (.literal ⟨.number 3, "3", 1⟩)))
      ⟨.mk [] none, []⟩ = (.error "Division by zero: 3 / 0", ⟨.mk [] none, []⟩) :=
  ⟨by
    have h := slash_zero_error_iff_and_comma_propagation.1 ⟨.slash, "/", 1⟩ 3 0 rfl
    simpa using h,
   slash_zero_error_iff_and_comma_propagation.2.2
     (.binary (.literal ⟨.number 3, "3", 1⟩) ⟨.slash, "/", 1⟩ (.literal ⟨.number 0, "0", 1⟩))
     (.binary (.literal ⟨.number 2, "2", 1⟩) ⟨.plus, "+", 1⟩ (.literal ⟨.number 3, "3", 1⟩))
     ⟨.comma, ",", 1⟩ ⟨.mk [] none, []⟩ "Division by zero: 3 / 0" ⟨.mk [] none, []⟩
     rfl rfl⟩

/-- C5 counterexample: the parse of `1 + 2` displays as `(+ 1 2)` (the
prefix `(op left right)` rendering), and re-parsing that printed form does
not reproduce the AST: it fails outright with "Expect expression.",
refuting the round-trip claim. -/
theorem printed_ast_of_binary_fails_to_reparse :
    parseExpression (scan_tokens "1 + 2") =
      .ok (.binary (.literal ⟨.number 1, "1", 1⟩) ⟨.plus, "+", 1⟩
        (.literal ⟨.number 2, "2", 1⟩), 3) ∧
    Expr.display (.binary (.literal ⟨.number 1, "1", 1⟩) ⟨.plus, "+", 1⟩
        (.literal ⟨.number 2, "2", 1⟩)) = "(+ 1 2)" ∧
    parseExpression (scan_tokens "(+ 1 2)") = .error "Expect expression." :=
  ⟨rfl, rfl, rfl⟩

/-- C5 (amended): the round trip holds for a bare literal expression, whose
printed form is its own lexeme, but it does not hold in general: the
printed AST form is prefix notation that the infix grammar rejects, so
re-parsing the canonical printed form of an arbitrary successfully parsed
expression need not reproduce it (witness `1 + 2`). -/
theorem ast_display_roundtrip_only_for_literals :
    (parseExpression (scan_tokens "1") = .ok (.literal ⟨.number 1, "1", 1⟩, 1) ∧
     parseExpression (scan_tokens (Expr.display (.literal ⟨.number 1, "1", 1⟩))) =
       .ok (.literal ⟨.number 1, "1", 1⟩, 1)) ∧
    ¬ (∀ (src : String) (e : Expr) (c : Nat),
        parseExpression (scan_tokens src) = .ok (e, c) →
        ∃ c', parseExpression (scan_tokens e.display) = .ok (e, c')) := by
  refine ⟨⟨rfl, rfl⟩, ?_⟩
  intro h
  obtain ⟨c', hc⟩ := h "1 + 2"
    (.binary (.literal ⟨.number 1, "1", 1⟩) ⟨.plus, "+", 1⟩ (.literal ⟨.number 2, "2", 1⟩))
    3 rfl
  rw [show Expr.display (.binary (.literal ⟨.number 1, "1", 1⟩) ⟨.plus, "+", 1⟩
      (.literal ⟨.number 2, "2", 1⟩)) = "(+ 1 2)" from rfl] at hc
  rw [show parseExpression (scan_tokens "(+ 1 2)") = .error "Expect expression." from rfl] at hc
  exact Except.noConfusion hc

/-- C6: binary `+` on two Numbers is the sum; `+` with a String on either
side concatenates, stringifying the other operand through its display
form; and `-`, `*`, `/` on any operand pair that is not two Numbers fail
with a type-mismatch error. -/
theorem plus_concat_and_arith_type_errors :
    (∀ (op : Token) (a b : ℚ), op.token_type = .plus →
        binaryOp op (.number a) (.number b) = .ok (.number (a + b))) ∧
    (∀ (op : Token) (v : Value) (s : String), op.token_type = .plus →
        binaryOp op v (.string s) = .ok (.string (v.display ++ s))) ∧
    (∀ (op : Token) (s : String) (v : Value), op.token_type = .plus →
        binaryOp op (.string s) v = .ok (.string (s ++ v.display))) ∧
    (∀ (op : Token) (v w : Value),
        (op.token_type = .minus ∨ op.token_type = .star ∨ op.token_type = .slash) →
        ¬(v.isNumber = true ∧ w.isNumber = true) →
        isUnexpectedErr (binaryOp op v w)) := by
  refine ⟨?_, ?_, ?_, ?_⟩
  · intro op a b hop
    obtain ⟨opt, lex, oline⟩ := op
    replace hop : opt = TokenType.plus := hop
    subst hop
    rfl
  · intro op v s hop
    obtain ⟨opt, lex, oline⟩ := op
    replace hop : opt = TokenType.plus := hop
    subst hop
    cases v <;> rfl
  · intro op s v hop
    obtain ⟨opt, lex, oline⟩ := op
    replace hop : opt = TokenType.plus := hop
    subst hop
    cases v <;> rfl
  · intro op v w hop hnum
    obtain ⟨opt, lex, oline⟩ := op
    replace hop : opt = TokenType.minus ∨ opt = TokenType.star ∨ opt = TokenType.slash := hop
    cases v with
    | number a =>
        cases w with
        | number b => exact absurd ⟨rfl, rfl⟩ hnum
        | string t => rcases hop with rfl | rfl | rfl <;> exact unexpectedTokenTypeMsg _
        | boolean b => rcases hop with rfl | rfl | rfl <;> exact unexpectedValuesMsg _ _ _ _ _
        | nil => rcases hop with rfl | rfl | rfl <;> exact unexpectedValuesMsg _ _ _ _ _
    | string s =>
        cases w <;> rcases hop with rfl | rfl | rfl <;> exact unexpectedTokenTypeMsg _
    | boolean b =>
        cases w with
        | number a => rcases hop with rfl | rfl | rfl <;> exact unexpectedValuesMsg _ _ _ _ _
        | string t => rcases hop with rfl | rfl | rfl <;> exact unexpectedTokenTypeMsg _
        | boolean c => rcases hop with rfl | rfl | rfl <;> exact unexpectedValuesMsg _ _ _ _ _
        | nil => rcases hop with rfl | rfl | rfl <;> exact unexpectedValuesMsg _ _ _ _ _
    | nil =>
        cases w with
        | number a => rcases hop with rfl | rfl | rfl <;> exact unexpectedValuesMsg _ _ _ _ _
        | string t => rcases hop with rfl | rfl | rfl <;> exact unexpectedTokenTypeMsg _
        | boolean c => rcases hop with rfl | rfl | rfl <;> exact unexpectedValuesMsg _ _ _ _ _
        | nil => rcases hop with rfl | rfl | rfl <;> exact unexpectedValuesMsg _ _ _ _ _

/-- C6 witness: number addition, number-string and string-boolean
concatenation through the display form, and a type error for `-` on two
strings. -/
theorem plus_concat_and_arith_type_errors_witness :
    (binaryOp ⟨.plus, "+", 1⟩ (.number 1) (.number 2) = .ok (.number (1 + 2))) ∧
    (binaryOp ⟨.plus, "+", 1⟩ (.number 1) (.string " apple") =
        .ok (.string (Value.display (.number 1) ++ " apple"))) ∧
    (binaryOp ⟨.plus, "+", 1⟩ (.string "no ") (.boolean true) =
        .ok (.string ( "no " ++ Value.display (.boolean true)))) ∧
    isUnexpectedErr (binaryOp ⟨.minus, "-", 1⟩ (.string "a") (.string "b")) :=
  ⟨plus_concat_and_arith_type_errors.1 ⟨.plus, "+", 1⟩ 1 2 rfl,
   plus_concat_and_arith_type_errors.2.1 ⟨.plus, "+", 1⟩ (.number 1) " apple" rfl,
   plus_concat_and_arith_type_errors.2.2.1 ⟨.plus, "+", 1⟩ "no " (.boolean true) rfl,
   plus_concat_and_arith_type_errors.2.2.2 ⟨.minus, "-", 1⟩ (.string "a") (.string "b")
     (Or.inl rfl) (by simp [Value.isNumber])⟩

/-- C7: the ternary grammar level recognizes at most a single question
mark and colon per equality-level operand: whenever it returns a Ternary
node, the condition and both branches come from the equality level and are
never themselves Ternary nodes at the root; concretely, the chain
`1 ? 2 : 3 ? 4 : 5;` is rejected as a program while the explicitly grouped
`1 ? 2 : (3 ? 4 : 5);` parses. -/
theorem ternary_non_chaining :
    (∀ (fuel : Nat) (tokens : List Token) (current : Nat) (l : Expr) (q : Token) (m : Expr)
        (c : Token) (r : Expr) (cur : Nat),
        ternary fuel tokens current = .ok (.ternary l q m c r, cur) →
        isTernaryNode l = false ∧ isTernaryNode m = false ∧ isTernaryNode r = false) ∧
    parse (scan_tokens "1 ? 2 : 3 ? 4 : 5;") =
      .error ( "Expect \x27;\x27 after expression.") ∧
    (∃ prog, parse (scan_tokens "1 ? 2 : (3 ? 4 : 5);") = .ok prog) := by
  refine ⟨?_, rfl, ⟨_, rfl⟩⟩
  intro fuel tokens current l q m c r cur h
  cases fuel with
  | zero => simp [ternary] at h
  | succ f =>
      have hE := equality_no_ternary_top f
      simp only [ternary] at h
      split at h
      · simp at h
      · rename_i expr c1 heq1
        split at h
        · split at h
          · simp at h
          · rename_i middle c3 heq2
            split at h
            · simp at h
            · split at h
              · simp at h
              · rename_i right c5 heq3
                simp only [Except.ok.injEq, Prod.mk.injEq, Expr.ternary.injEq] at h
                obtain ⟨⟨rfl, -, rfl, -, rfl⟩, -⟩ := h
                exact ⟨hE _ _ _ _ heq1, hE _ _ _ _ heq2, hE _ _ _ _ heq3⟩
        · simp only [Except.ok.injEq, Prod.mk.injEq] at h
          obtain ⟨he, -⟩ := h
          have hfalse := hE _ _ _ _ heq1
          rw [he] at hfalse
          simp [isTernaryNode] at hfalse

/-- C7 witness: the ternary parse of `1 ? 2 : 3` yields a Ternary node
whose condition and branches are plain literals, none a Ternary. -/
theorem ternary_non_chaining_witness :
    isTernaryNode (.literal ⟨.number 1, "1", 1⟩) = false ∧
    isTernaryNode (.literal ⟨.number 2, "2", 1⟩) = false ∧
    isTernaryNode (.literal ⟨.number 3, "3", 1⟩) = false :=
  ternary_non_chaining.1 99 (scan_tokens "1 ? 2 : 3") 0
    (.literal ⟨.number 1, "1", 1⟩) ⟨.questionMark, "?", 1⟩ (.literal ⟨.number 2, "2", 1⟩)
    ⟨.colon, ":", 1⟩ (.literal ⟨.number 3, "3", 1⟩) 5 rfl

/-- C8: the addition level folds iteratively to the left, so a number plus
number plus number token sequence parses as `((a+b)+c)` with the earlier
operand as the left child, for every payload and lexeme; and
`1 + 2 * 3` evaluates to the Number 7 because multiplication binds
tighter. -/
theorem binary_levels_left_associative_and_precedence :
    (∀ (a b c : ℚ) (la lb lc : String) (ln : Nat),
        expression 99 [⟨.number a, la, ln⟩, ⟨.plus, "+", ln⟩, ⟨.number b, lb, ln⟩,
            ⟨.plus, "+", ln⟩, ⟨.number c, lc, ln⟩, ⟨.eof, "", ln⟩] 0 =
          .ok (.binary (.binary (.literal ⟨.number a, la, ln⟩) ⟨.plus, "+", ln⟩
              (.literal ⟨.number b, lb, ln⟩)) ⟨.plus, "+", ln⟩
            (.literal ⟨.number c, lc, ln⟩), 5)) ∧
    (parseExpression (scan_tokens "1 + 2 * 3")).map
        (fun p => (evalExpr p.1 ⟨.mk [] none, []⟩).1) = .ok (.ok (.number 7)) := by
  constructor
  · intro a b c la lb lc ln
    rfl
  · rw [show parseExpression (scan_tokens "1 + 2 * 3") =
        .ok (.binary (.literal ⟨.number 1, "1", 1⟩) ⟨.plus, "+", 1⟩
          (.binary (.literal ⟨.number 2, "2", 1⟩) ⟨.star, "*", 1⟩
            (.literal ⟨.number 3, "3", 1⟩)), 5) from rfl]
    show Except.ok ((evalExpr _ _).1) = _
    rw [show (evalExpr (.binary (.literal ⟨.number 1, "1", 1⟩) ⟨.plus, "+", 1⟩
        (.binary (.literal ⟨.number 2, "2", 1⟩) ⟨.star, "*", 1⟩
          (.literal ⟨.number 3, "3", 1⟩))) ⟨.mk [] none, []⟩).1 =
        .ok (.number ((1 : ℚ) + 2 * 3)) from rfl]
    norm_num

/-- C9: a Block statement that executes without a runtime error leaves the
interpreter environment exactly equal to the pre-block environment: the
pre-block environment is remembered on entry and reinstated verbatim on
the normal exit, so declarations and assignments made inside the block are
all discarded. -/
theorem block_normal_exit_restores_prior_environment_exactly :
    ∀ (fuel : Nat) (ss : List Stmt) (st st' : InterpState),
      execStmt fuel (.block ss) st = (.ok (), st') → st'.environment = st.environment := by
  intro fuel ss st st' h
  cases fuel with
  | zero => simp [execStmt, execS] at h
  | succ f =>
      simp only [execStmt, execS] at h
      split at h
      · simp at h
      · simp only [Prod.mk.injEq] at h
        obtain ⟨-, h2⟩ := h
        rw [← h2]

/-- C9 witness: a block that declares `z` and assigns to the pre-existing
`w` completes normally and the environment afterwards equals the pre-block
environment, with the assignment to `w` discarded. -/
theorem block_normal_exit_restores_prior_environment_exactly_witness :
    ((execStmt 9 (.block [.var ⟨.identifier "z", "z", 1⟩ (.literal ⟨.number 2, "2", 1⟩),
        .expression (.assign ⟨.identifier "w", "w", 1⟩ (.literal ⟨.number 3, "3", 1⟩))])
      ⟨.mk [("w", .number 1)] none, []⟩).2).environment = .mk [("w", .number 1)] none :=
  block_normal_exit_restores_prior_environment_exactly 9
    [.var ⟨.identifier "z", "z", 1⟩ (.literal ⟨.number 2, "2", 1⟩),
      .expression (.assign ⟨.identifier "w", "w", 1⟩ (.literal ⟨.number 3, "3", 1⟩))]
    ⟨.mk [("w", .number 1)] none, []⟩
    ((execStmt 9 (.block [.var ⟨.identifier "z", "z", 1⟩ (.literal ⟨.number 2, "2", 1⟩),
        .expression (.assign ⟨.identifier "w", "w", 1⟩ (.literal ⟨.number 3, "3", 1⟩))])
      ⟨.mk [("w", .number 1)] none, []⟩).2) (by rfl)

/-- C10: `var` re-declaration always succeeds and silently replaces the
existing binding in the current scope: defining the same name twice equals
defining it once with the second value, lookup after a define sees the new
value, and the Var statement succeeds whenever its initializer evaluates,
for every name and every pair of values. -/
theorem var_redeclaration_always_succeeds_and_replaces :
    (∀ (env : Environment) (n : String) (v1 v2 : Value),
        (env.define n v1).define n v2 = env.define n v2) ∧
    (∀ (env : Environment) (n : String) (v : Value),
        mapGet ((env.define n v).values) n = some v) ∧
    (∀ (fuel : Nat) (name : Token) (e : Expr) (st : InterpState) (v : Value)
        (st1 : InterpState), evalExpr e st = (.ok v, st1) →
        execStmt (fuel + 1) (.var name e) st =
          (.ok (), { st1 with environment := st1.environment.define name.lexeme v })) := by
  refine ⟨?_, ?_, ?_⟩
  · intro env n v1 v2
    cases env with
    | mk values enclosing =>
        simp [Environment.define, Environment.insert, Environment.values,
          Environment.enclosing, mapInsert_mapInsert]
  · intro env n v
    cases env with
    | mk values enclosing =>
        simp [Environment.define, Environment.insert, Environment.values,
          Environment.enclosing, mapGet_mapInsert_self]
  · intro fuel name e st v st1 h
    simp [execStmt, execS, h]

/-- C10 witness: re-defining `a` replaces its binding, and a Var statement
for the already-bound `a` succeeds. -/
theorem var_redeclaration_always_succeeds_and_replaces_witness :
    (Environment.define (Environment.define (.mk [] none) "a" (.number 1)) "a" (.number 2) =
        Environment.define (.mk [] none) "a" (.number 2)) ∧
    execStmt 1 (.var ⟨.identifier "a", "a", 1⟩ (.literal ⟨.true_, "true", 1⟩))
        ⟨.mk [("a", .number 1)] none, []⟩ =
      (.ok (), { (⟨.mk [("a", .number 1)] none, []⟩ : InterpState) with
          environment := (Environment.mk [("a", .number 1)] none).define "a" (.boolean true) }) :=
  ⟨var_redeclaration_always_succeeds_and_replaces.1 (.mk [] none) "a" (.number 1) (.number 2),
   var_redeclaration_always_succeeds_and_replaces.2.2 0 ⟨.identifier "a", "a", 1⟩
     (.literal ⟨.true_, "true", 1⟩) ⟨.mk [("a", .number 1)] none, []⟩ (.boolean true)
     ⟨.mk [("a", .number 1)] none, []⟩ rfl⟩

end RLox
